import Mathlib

/-!
Shallow embedding of `ss.py` (wattschain-mlm-platform skeleton generator).

The script is a flat sequence of filesystem calls: `os.makedirs(..., exist_ok=True)`
and `create_file` (which ensures the parent directory via `os.makedirs(os.path.dirname p)`
and then opens the file for writing, truncating it).  We model the filesystem as a
finite tree: a directory maps names to nodes, a node is a directory or a file with
string content.  Fallible calls return `Except Unit`; an exception in Python aborts
the remaining calls, which the `run`/`runP` semantics below makes explicit.
-/

namespace WattsChain

/-- A filesystem node: a regular file with its byte content (modelled as a
`String`), or a directory with its named children. -/
inductive Node where
  | file (content : String)
  | dir (children : List (String × Node))
deriving Inhabited

/-- The contents of the current working directory: named entries. -/
abbrev FS := List (String × Node)

/-- First-match association lookup among the entries of one directory. -/
def assoc : FS → String → Option Node
  | [], _ => none
  | (k, v) :: rest, key => if k = key then some v else assoc rest key

/-- Replace the entry at `key` (first occurrence) or append it at the end. -/
def setAssoc : FS → String → Node → FS
  | [], key, v => [(key, v)]
  | (k, w) :: rest, key, v =>
    if k = key then (key, v) :: rest else (k, w) :: setAssoc rest key v

/-- Split a character list at `'/'` (the semantics of `str.split("/")` /
`posixpath` component decomposition): always returns a non-empty list of
components. -/
def splitCompsAux : List Char → List (List Char)
  | [] => [[]]
  | c :: rest =>
    if c = '/' then [] :: splitCompsAux rest
    else
      match splitCompsAux rest with
      | [] => [[c]]
      | h :: t => (c :: h) :: t

/-- The `'/'`-separated components of a path string. -/
def splitPath (p : String) : List String :=
  (splitCompsAux p.data).map (fun l => String.mk l)

/-- Re-join components with `'/'`: left inverse of `splitPath` on the paths the
program builds. -/
def joinComps : List String → String
  | [] => ""
  | [c] => c
  | c :: rest => c ++ "/" ++ joinComps rest

/-- `os.path.dirname`: everything before the last `'/'`; `""` for a bare
filename. -/
def dirname (p : String) : String :=
  joinComps (splitPath p).dropLast

/-- `s.startswith(pre)` on the underlying characters. -/
def strStartsWith (s pre : String) : Bool :=
  pre.data.isPrefixOf s.data

/-- `s.endswith(suf)` on the underlying characters. -/
def strEndsWith (s suf : String) : Bool :=
  suf.data.isSuffixOf s.data

/-- `os.path.join a b` for POSIX paths as the script uses it: `b` replaces the
result when absolute, otherwise it is appended with a separating `'/'` unless
`a` is empty or already ends in one. -/
def pathJoin (a b : String) : String :=
  if strStartsWith b "/" then b
  else if a = "" ∨ strEndsWith a "/" then a ++ b
  else a ++ "/" ++ b

/-- Look a component path up in the tree. -/
def lookupFS : FS → List String → Option Node
  | _, [] => none
  | fs, [c] => assoc fs c
  | fs, c :: rest =>
    match assoc fs c with
    | some (.dir ch) => lookupFS ch rest
    | _ => none

/-- `os.makedirs(path, exist_ok=True)` on components: create each missing
directory along the path; an existing directory is left untouched; a regular
file in the way raises (`FileExistsError`/`NotADirectoryError`). -/
def makedirsComps : FS → List String → Except Unit FS
  | fs, [] => .ok fs
  | fs, c :: rest =>
    match assoc fs c with
    | some (.file _) => .error ()
    | some (.dir ch) => (makedirsComps ch rest).map (fun ch' => setAssoc fs c (.dir ch'))
    | none => (makedirsComps ([] : FS) rest).map (fun ch' => setAssoc fs c (.dir ch'))

/-- `os.makedirs(path, exist_ok=True)`: `os.makedirs("")` raises
`FileNotFoundError` even with `exist_ok=True`. -/
def makedirs (fs : FS) (p : String) : Except Unit FS :=
  if p = "" then .error () else makedirsComps fs (splitPath p)

/-- `open(path, "w")` + `write(content)` on components: the parent chain must
already consist of directories, the target must not be a directory; an existing
file is truncated and overwritten. -/
def writeFileAux : FS → List String → String → Except Unit FS
  | _, [], _ => .error ()
  | fs, [c], content =>
    match assoc fs c with
    | some (.dir _) => .error ()
    | _ => .ok (setAssoc fs c (.file content))
  | fs, c :: rest, content =>
    match assoc fs c with
    | some (.dir ch) => (writeFileAux ch rest content).map (fun ch' => setAssoc fs c (.dir ch'))
    | _ => .error ()

/-- `open(path, "w")` followed by `f.write(content)`. -/
def writeFile (fs : FS) (p : String) (content : String) : Except Unit FS :=
  if p = "" then .error () else writeFileAux fs (splitPath p) content

/-- `ss.py` lines 4-9: `create_file(path, content="")` ensures the directory of
`path` exists (`os.makedirs(os.path.dirname(path), exist_ok=True)`) and then
writes `content` to `path`, truncating any existing file. -/
def create_file (fs : FS) (path : String) (content : String := "") : Except Unit FS := do
  let fs ← makedirs fs (dirname path)
  writeFile fs path content

/-- `ss.py` line 13. -/
def base_dir : String := "wattschain-mlm-platform"

/-- `ss.py` literal table `root_files`. -/
def root_files : List String :=
  ["README.md",
  "package.json",
  "next.config.js",
  "tailwind.config.ts",
  "postcss.config.js",
  ".env.local",
  ".env.example",
  ".gitignore",
  "tsconfig.json",
  "components.json",
  "middleware.ts",
  "docker-compose.yml"]

/-- `ss.py` literal table `public_dirs`. -/
def public_dirs : List String :=
  ["public/images/payment-methods",
  "public/locales/en",
  "public/locales/sw"]

/-- `ss.py` literal table `public_files` (a Python dict, iterated in insertion order). -/
def public_files : List (String × String) :=
  [("public/favicon.ico", ""),
  ("public/logo.png", ""),
  ("public/wattschain-logo.svg", ""),
  ("public/images/kyc-verification.png", ""),
  ("public/images/token-icon.png", ""),
  ("public/locales/en/common.json", ""),
  ("public/locales/sw/common.json", "")]

/-- `ss.py` literal table `src_dirs`. -/
def src_dirs : List String :=
  ["src/app/(marketing)/about",
  "src/app/(marketing)/whitepaper",
  "src/app/(marketing)/legal/[type]",
  "src/app/(marketing)/contact",
  "src/app/(auth)/login",
  "src/app/(auth)/register",
  "src/app/(auth)/forgot-password",
  "src/app/(auth)/verify-email",
  "src/app/(auth)/invite/[code]",
  "src/app/(dashboard)/dashboard",
  "src/app/(dashboard)/profile",
  "src/app/(dashboard)/wallet",
  "src/app/(dashboard)/transactions",
  "src/app/(dashboard)/token-purchase/checkout",
  "src/app/(dashboard)/token-purchase/payment/[ivisethod]",
  "src/app/(dashboard)/token-purchase/success",
  "src/app/(dashboard)/affiliate/tree",
  "src/app/(dashboard)/affiliate/commissions",
  "src/app/(dashboard)/affiliate/referrals",
  "src/app/(dashboard)/affiliate/withdraw",
  "src/app/(dashboard)/kyc/verification",
  "src/app/(dashboard)/kyc/status",
  "src/app/(dashboard)/support/tickets",
  "src/app/(dashboard)/support/faq",
  "src/app/(admin)/admin/users",
  "src/app/(admin)/admin/mlm/tree-audit",
  "src/app/(admin)/admin/mlm/commissions",
  "src/app/(admin)/admin/mlm/settings",
  "src/app/(admin)/admin/transactions",
  "src/app/(admin)/admin/kyc-reviews",
  "src/app/(admin)/admin/token-pricing",
  "src/app/(admin)/admin/reports",
  "src/app/api/auth",
  "src/app/api/user",
  "src/app/api/token",
  "src/app/api/payment/mpesa/[action]",
  "src/app/api/payment/crypto/[action]",
  "src/app/api/payment/stripe/[action]",
  "src/app/api/mlm",
  "src/app/api/kyc",
  "src/app/api/admin",
  "src/app/api/webhooks/payment/[provider]",
  "src/app/api/webhooks/kyc",
  "src/components/ui",
  "src/components/layout",
  "src/components/auth",
  "src/components/dashboard",
  "src/components/token",
  "src/components/mlm",
  "src/components/kyc",
  "src/components/admin",
  "src/components/payments",
  "src/components/common",
  "src/lib",
  "src/types",
  "src/models",
  "src/hooks",
  "src/context",
  "src/store",
  "src/middleware"]

/-- `ss.py` literal table `src_files` (a Python dict, iterated in insertion order). -/
def src_files : List (String × String) :=
  [("src/app/globals.css", ""),
  ("src/app/layout.tsx", ""),
  ("src/app/page.tsx", ""),
  ("src/app/loading.tsx", ""),
  ("src/app/error.tsx", ""),
  ("src/app/not-found.tsx", ""),
  ("src/app/(marketing)/layout.tsx", ""),
  ("src/app/(marketing)/about/page.tsx", ""),
  ("src/app/(marketing)/whitepaper/page.tsx", ""),
  ("src/app/(marketing)/legal/[type]/page.tsx", ""),
  ("src/app/(marketing)/contact/page.tsx", ""),
  ("src/app/(auth)/layout.tsx", ""),
  ("src/app/(auth)/login/page.tsx", ""),
  ("src/app/(auth)/register/page.tsx", ""),
  ("src/app/(auth)/forgot-password/page.tsx", ""),
  ("src/app/(auth)/verify-email/page.tsx", ""),
  ("src/app/(auth)/invite/[code]/page.tsx", ""),
  ("src/app/(dashboard)/layout.tsx", ""),
  ("src/app/(dashboard)/dashboard/page.tsx", ""),
  ("src/app/(dashboard)/profile/page.tsx", ""),
  ("src/app/(dashboard)/wallet/page.tsx", ""),
  ("src/app/(dashboard)/transactions/page.tsx", ""),
  ("src/app/(dashboard)/token-purchase/page.tsx", ""),
  ("src/app/(dashboard)/token-purchase/checkout/page.tsx", ""),
  ("src/app/(dashboard)/token-purchase/payment/[method]/page.tsx", ""),
  ("src/app/(dashboard)/token-purchase/success/page.tsx", ""),
  ("src/app/(dashboard)/affiliate/page.tsx", ""),
  ("src/app/(dashboard)/affiliate/tree/page.tsx", ""),
  ("src/app/(dashboard)/affiliate/commissions/page.tsx", ""),
  ("src/app/(dashboard)/affiliate/referrals/page.tsx", ""),
  ("src/app/(dashboard)/affiliate/withdraw/page.tsx", ""),
  ("src/app/(dashboard)/kyc/page.tsx", ""),
  ("src/app/(dashboard)/kyc/verification/page.tsx", ""),
  ("src/app/(dashboard)/kyc/status/page.tsx", ""),
  ("src/app/(dashboard)/support/page.tsx", ""),
  ("src/app/(dashboard)/support/tickets/page.tsx", ""),
  ("src/app/(dashboard)/support/faq/page.tsx", ""),
  ("src/app/(admin)/layout.tsx", ""),
  ("src/app/(admin)/admin/page.tsx", ""),
  ("src/app/(admin)/admin/users/page.tsx", ""),
  ("src/app/(admin)/admin/mlm/page.tsx", ""),
  ("src/app/(admin)/admin/mlm/tree-audit/page.tsx", ""),
  ("src/app/(admin)/admin/mlm/commissions/page.tsx", ""),
  ("src/app/(admin)/admin/mlm/settings/page.tsx", ""),
  ("src/app/(admin)/admin/transactions/page.tsx", ""),
  ("src/app/(admin)/admin/kyc-reviews/page.tsx", ""),
  ("src/app/(admin)/admin/token-pricing/page.tsx", ""),
  ("src/app/(admin)/admin/reports/page.tsx", ""),
  ("src/app/api/auth/login/route.ts", ""),
  ("src/app/api/auth/register/route.ts", ""),
  ("src/app/api/auth/logout/route.ts", ""),
  ("src/app/api/auth/verify-email/route.ts", ""),
  ("src/app/api/user/profile/route.ts", ""),
  ("src/app/api/user/wallet/route.ts", ""),
  ("src/app/api/user/transactions/route.ts", ""),
  ("src/app/api/token/purchase/route.ts", ""),
  ("src/app/api/token/price/route.ts", ""),
  ("src/app/api/token/balance/route.ts", ""),
  ("src/app/api/payment/mpesa/[action]/route.ts", ""),
  ("src/app/api/payment/crypto/[action]/route.ts", ""),
  ("src/app/api/payment/stripe/[action]/route.ts", ""),
  ("src/app/api/mlm/tree/route.ts", ""),
  ("src/app/api/mlm/commissions/route.ts", ""),
  ("src/app/api/mlm/referrals/route.ts", ""),
  ("src/app/api/mlm/withdraw/route.ts", ""),
  ("src/app/api/mlm/validate-referral/route.ts", ""),
  ("src/app/api/kyc/submit/route.ts", ""),
  ("src/app/api/kyc/status/route.ts", ""),
  ("src/app/api/kyc/shuftipro-webhook/route.ts", ""),
  ("src/app/api/admin/users/route.ts", ""),
  ("src/app/api/admin/mlm/[action]/route.ts", ""),
  ("src/app/api/admin/transactions/route.ts", ""),
  ("src/app/api/admin/kyc-reviews/route.ts", ""),
  ("src/app/api/admin/token-pricing/route.ts", ""),
  ("src/app/api/admin/reports/route.ts", ""),
  ("src/app/api/webhooks/payment/[provider]/route.ts", ""),
  ("src/app/api/webhooks/kyc/shuftipro/route.ts", ""),
  ("src/components/ui/button.tsx", ""),
  ("src/components/ui/input.tsx", ""),
  ("src/components/ui/card.tsx", ""),
  ("src/components/ui/dialog.tsx", ""),
  ("src/components/ui/table.tsx", ""),
  ("src/components/ui/badge.tsx", ""),
  ("src/components/ui/alert.tsx", ""),
  ("src/components/ui/toast.tsx", ""),
  ("src/components/ui/select.tsx", ""),
  ("src/components/ui/textarea.tsx", ""),
  ("src/components/ui/spinner.tsx", ""),
  ("src/components/layout/Header.tsx", ""),
  ("src/components/layout/Footer.tsx", ""),
  ("src/components/layout/Sidebar.tsx", ""),
  ("src/components/layout/DashboardLayout.tsx", ""),
  ("src/components/auth/LoginForm.tsx", ""),
  ("src/components/auth/RegisterForm.tsx", ""),
  ("src/components/auth/ProtectedRoute.tsx", ""),
  ("src/components/auth/KYCStatus.tsx", ""),
  ("src/components/dashboard/DashboardStats.tsx", ""),
  ("src/components/dashboard/WalletBalance.tsx", ""),
  ("src/components/dashboard/RecentTransactions.tsx", ""),
  ("src/components/token/TokenPurchaseForm.tsx", ""),
  ("src/components/token/PresalePricing.tsx", ""),
  ("src/components/token/PaymentMethods.tsx", ""),
  ("src/components/mlm/ReferralTree.tsx", ""),
  ("src/components/mlm/CommissionTracker.tsx", ""),
  ("src/components/mlm/ReferralLink.tsx", ""),
  ("src/components/mlm/WithdrawForm.tsx", ""),
  ("src/components/mlm/LockPeriodDisplay.tsx", ""),
  ("src/components/kyc/KYCForm.tsx", ""),
  ("src/components/kyc/DocumentUpload.tsx", ""),
  ("src/components/kyc/VerificationStatus.tsx", ""),
  ("src/components/admin/UserManagement.tsx", ""),
  ("src/components/admin/MLMTreeViewer.tsx", ""),
  ("src/components/admin/CommissionManager.tsx", ""),
  ("src/components/admin/KYCReviewPanel.tsx", ""),
  ("src/components/admin/PresalePricingManager.tsx", ""),
  ("src/components/admin/TransactionMonitor.tsx", ""),
  ("src/components/payments/MPesaPayment.tsx", ""),
  ("src/components/payments/CryptoPayment.tsx", ""),
  ("src/components/payments/StripePayment.tsx", ""),
  ("src/components/common/DataTable.tsx", ""),
  ("src/components/common/LoadingSpinner.tsx", ""),
  ("src/components/common/ErrorBoundary.tsx", ""),
  ("src/lib/utils.ts", ""),
  ("src/lib/constants.ts", ""),
  ("src/lib/validations.ts", ""),
  ("src/lib/auth.ts", ""),
  ("src/lib/database.ts", ""),
  ("src/lib/payments.ts", ""),
  ("src/lib/kyc.ts", ""),
  ("src/lib/mlm.ts", ""),
  ("src/lib/email.ts", ""),
  ("src/lib/presale-pricing.ts", ""),
  ("src/types/index.ts", ""),
  ("src/types/auth.ts", ""),
  ("src/types/user.ts", ""),
  ("src/types/transaction.ts", ""),
  ("src/types/mlm.ts", ""),
  ("src/types/kyc.ts", ""),
  ("src/types/payment.ts", ""),
  ("src/types/presale.ts", ""),
  ("src/models/User.ts", ""),
  ("src/models/Transaction.ts", ""),
  ("src/models/MLMTree.ts", ""),
  ("src/models/Commission.ts", ""),
  ("src/models/KYC.ts", ""),
  ("src/models/Token.ts", ""),
  ("src/models/Wallet.ts", ""),
  ("src/models/Payment.ts", ""),
  ("src/models/PresaleRound.ts", ""),
  ("src/hooks/useAuth.ts", ""),
  ("src/hooks/useUser.ts", ""),
  ("src/hooks/useMLM.ts", ""),
  ("src/hooks/useTransactions.ts", ""),
  ("src/hooks/useKYC.ts", ""),
  ("src/hooks/usePayments.ts", ""),
  ("src/hooks/usePresalePricing.ts", ""),
  ("src/context/AuthContext.tsx", ""),
  ("src/context/UserContext.tsx", ""),
  ("src/context/MLMContext.tsx", ""),
  ("src/store/authStore.ts", ""),
  ("src/store/userStore.ts", ""),
  ("src/store/mlmStore.ts", ""),
  ("src/middleware/auth.ts", ""),
  ("src/middleware/admin.ts", ""),
  ("src/middleware/rateLimit.ts", "")]

/-- `ss.py` literal table `docs_files`. -/
def docs_files : List String :=
  ["docs/API.md",
  "docs/MLM_LOGIC.md",
  "docs/PRESALE_ROUNDS.md"]

/-- `ss.py` literal table `test_dirs`. -/
def test_dirs : List String :=
  ["tests/components",
  "tests/api",
  "tests/lib"]

/-- Loop `for file in root_files` (also `docs_files`): each entry gets
`create_file(os.path.join(base_dir, file))` with the default empty content. -/
def forFiles : FS → List String → Except Unit FS
  | fs, [] => .ok fs
  | fs, file :: rest => do
    let fs ← create_file fs (pathJoin base_dir file) ""
    forFiles fs rest

/-- Loop `for dir_path in ...`: `os.makedirs(os.path.join(base_dir, dir_path), exist_ok=True)`. -/
def forDirs : FS → List String → Except Unit FS
  | fs, [] => .ok fs
  | fs, dir_path :: rest => do
    let fs ← makedirs fs (pathJoin base_dir dir_path)
    forDirs fs rest

/-- Loop `for file_path, content in ...items()`. -/
def forPairs : FS → List (String × String) → Except Unit FS
  | fs, [] => .ok fs
  | fs, (file_path, content) :: rest => do
    let fs ← create_file fs (pathJoin base_dir file_path) content
    forPairs fs rest

/-- `ss.py` lines 11-318, `create_directory_structure`: the sequence of
filesystem calls of the script, in source order, acting on an initial
filesystem state. -/
def create_directory_structure (fs : FS) : Except Unit FS := do
  let fs ← makedirs fs base_dir
  let fs ← forFiles fs root_files
  let fs ← forDirs fs public_dirs
  let fs ← forPairs fs public_files
  let fs ← forDirs fs src_dirs
  let fs ← forPairs fs src_files
  let fs ← makedirs fs (pathJoin base_dir "data")
  let fs ← create_file fs (pathJoin base_dir "data/presale-pricing.json") ""
  let fs ← forFiles fs docs_files
  forDirs fs test_dirs

/-- `ss.py` lines 320-322: the entry point calls `create_directory_structure`
and then prints the confirmation; an exception aborts before the print. -/
def successMsg : String := "Directory structure created successfully!"

/-- What the entry point writes to the console: the confirmation message when
the materialization completed, nothing when it raised. -/
def mainOutput (fs : FS) : Option String :=
  match create_directory_structure fs with
  | .ok _ => some successMsg
  | .error _ => none

/-- One path-creation step of the script. -/
inductive Op where
  | mkdirs (p : String)
  | write (p : String) (c : String)
deriving DecidableEq

/-- Execute one step: `Op.mkdirs` is `os.makedirs(p, exist_ok=True)`,
`Op.write` is `create_file(p, c)`. -/
def runOp (fs : FS) : Op → Except Unit FS
  | .mkdirs p => makedirs fs p
  | .write p c => create_file fs p c

/-- Execute steps in sequence; an error aborts the remaining steps. -/
def run : FS → List Op → Except Unit FS
  | fs, [] => .ok fs
  | fs, op :: ops =>
    match runOp fs op with
    | .ok fs' => run fs' ops
    | .error e => .error e

/-- Execute steps in sequence, keeping the filesystem state reached when a
step fails (Python raises, but what was already created stays on disk):
returns the final state and whether every step succeeded. -/
def runP : FS → List Op → FS × Bool
  | fs, [] => (fs, true)
  | fs, op :: ops =>
    match runOp fs op with
    | .ok fs' => runP fs' ops
    | .error _ => (fs, false)

/-- The path-creation steps of the script, in source order. -/
def programOps : List Op :=
  [Op.mkdirs base_dir]
    ++ root_files.map (fun file => Op.write (pathJoin base_dir file) "")
    ++ public_dirs.map (fun dir_path => Op.mkdirs (pathJoin base_dir dir_path))
    ++ public_files.map (fun pc => Op.write (pathJoin base_dir pc.1) pc.2)
    ++ src_dirs.map (fun dir_path => Op.mkdirs (pathJoin base_dir dir_path))
    ++ src_files.map (fun pc => Op.write (pathJoin base_dir pc.1) pc.2)
    ++ [Op.mkdirs (pathJoin base_dir "data"),
        Op.write (pathJoin base_dir "data/presale-pricing.json") ""]
    ++ docs_files.map (fun file => Op.write (pathJoin base_dir file) "")
    ++ test_dirs.map (fun dir_path => Op.mkdirs (pathJoin base_dir dir_path))

/-- `true` iff the path is bound to a directory. -/
def isDir (fs : FS) (p : String) : Bool :=
  match lookupFS fs (splitPath p) with
  | some (.dir _) => true
  | _ => false

/-- The content of the regular file at the path, if there is one. -/
def fileContent (fs : FS) (p : String) : Option String :=
  match lookupFS fs (splitPath p) with
  | some (.file c) => some c
  | _ => none

/-- The directory paths of the literal tables, joined under the root as the
script does: the root itself, `public_dirs`, `src_dirs`, `data`, `docs`
(materialized through `create_file`), and `test_dirs`. -/
def allDirs : List String :=
  [base_dir]
    ++ public_dirs.map (pathJoin base_dir)
    ++ src_dirs.map (pathJoin base_dir)
    ++ [pathJoin base_dir "data", pathJoin base_dir "docs"]
    ++ test_dirs.map (pathJoin base_dir)

/-- Every file path of the literal tables with its associated content, joined
under the root as the script does. -/
def allFilePairs : List (String × String) :=
  root_files.map (fun file => (pathJoin base_dir file, ""))
    ++ public_files.map (fun pc => (pathJoin base_dir pc.1, pc.2))
    ++ src_files.map (fun pc => (pathJoin base_dir pc.1, pc.2))
    ++ [(pathJoin base_dir "data/presale-pricing.json", "")]
    ++ docs_files.map (fun file => (pathJoin base_dir file, ""))

/-- Every `Op.write` of the list carries the content `ct` (in this program,
`""`). -/
def AllWrites (ops : List Op) (ct : String) : Prop :=
  ∀ p c, Op.write p c ∈ ops → c = ct

/-- The state already holds what the step would create: the step is a no-op. -/
def NoopReady (fs : FS) : Op → Prop
  | .mkdirs p => p ≠ "" ∧ isDir fs p = true
  | .write p c => p ≠ "" ∧ dirname p ≠ "" ∧ isDir fs (dirname p) = true ∧
      fileContent fs p = some c

/-- The path argument a step passes to `os.makedirs` / `create_file`. -/
def opPath : Op → String
  | .mkdirs p => p
  | .write p _ => p

/-- A relative entry with no absolute prefix and no parent-directory (`..`)
component. -/
def SafeRel (rel : String) : Prop :=
  strStartsWith rel "/" = false ∧ ".." ∉ splitPath rel

instance : DecidablePred SafeRel := fun rel =>
  inferInstanceAs (Decidable (strStartsWith rel "/" = false ∧ ".." ∉ splitPath rel))

/-- The directory paths of the listed directory tables (`public_dirs`,
`src_dirs`, `data`, `test_dirs`), joined under the root. -/
def setDirPaths : List String :=
  public_dirs.map (pathJoin base_dir) ++ src_dirs.map (pathJoin base_dir)
    ++ [pathJoin base_dir "data"] ++ test_dirs.map (pathJoin base_dir)

/-- The ordering property claimed for the step sequence: every file-creation
step comes after every directory-creation step of the listed directory sets. -/
def FilesAfterListedDirs (ops : List Op) : Prop :=
  ∀ i j p c d, ops.get? i = some (Op.write p c) → ops.get? j = some (Op.mkdirs d) →
    d ∈ setDirPaths → j < i

/-- `true` when a write step's path has a non-empty directory component
(directory steps trivially pass). -/
def writeDirnameOk : Op → Bool
  | .write p _ => !(dirname p == "")
  | .mkdirs _ => true

/-- The tree a run from an empty working directory produces. -/
def resultTree : FS := (create_directory_structure []).toOption.getD []

/-- A start state where the root already exists and `README.md` holds
out-of-band content. -/
def junkStart : FS := [(base_dir, Node.dir [("README.md", Node.file "junk")])]

/-- The tree a run from `junkStart` produces. -/
def junkResult : FS := (create_directory_structure junkStart).toOption.getD []

/-- A start state in which the root name is taken by a regular file, so the
very first `os.makedirs` raises. -/
def failStart : FS := [(base_dir, Node.file "x")]

/-! ### Basic lemmas about the one-directory association list and path splitting -/

theorem splitCompsAux_ne_nil (cs : List Char) : splitCompsAux cs ≠ [] := by
  induction cs with
  | nil => simp [splitCompsAux]
  | cons c rest ih =>
    by_cases h : c = '/'
    · simp [splitCompsAux, h]
    · simp only [splitCompsAux, if_neg h]
      cases hs : splitCompsAux rest with
      | nil => simp
      | cons hd tl => simp

theorem splitPath_ne_nil (p : String) : splitPath p ≠ [] := by
  intro h
  exact splitCompsAux_ne_nil p.data (List.map_eq_nil_iff.mp h)

theorem assoc_setAssoc (fs : FS) (key k' : String) (v : Node) :
    assoc (setAssoc fs key v) k' = if key = k' then some v else assoc fs k' := by
  induction fs with
  | nil => by_cases h : key = k' <;> simp [setAssoc, assoc, h]
  | cons hd tl ih =>
    obtain ⟨k₀, v₀⟩ := hd
    by_cases hk : k₀ = key
    · subst hk
      by_cases h' : k₀ = k' <;> simp [setAssoc, assoc, h']
    · by_cases h' : k₀ = k'
      · subst h'
        have : ¬ key = k₀ := fun h => hk h.symm
        simp [setAssoc, assoc, hk, this]
      · simp [setAssoc, assoc, hk, h', ih]

theorem setAssoc_self (fs : FS) (key : String) (v : Node)
    (h : assoc fs key = some v) : setAssoc fs key v = fs := by
  induction fs with
  | nil => simp [assoc] at h
  | cons hd tl ih =>
    obtain ⟨k₀, v₀⟩ := hd
    by_cases hk : k₀ = key
    · subst hk
      simp [assoc] at h
      simp [setAssoc, h]
    · simp [assoc, hk] at h
      simp [setAssoc, hk, ih h]

theorem lookupFS_setAssoc_ne (fs : FS) (d : String) (v : Node) (qc : String)
    (qrest : List String) (h : d ≠ qc) :
    lookupFS (setAssoc fs d v) (qc :: qrest) = lookupFS fs (qc :: qrest) := by
  cases qrest <;> simp [lookupFS, assoc_setAssoc, h]

theorem lookupFS_setAssoc_nil (fs : FS) (d : String) (v : Node) :
    lookupFS (setAssoc fs d v) [d] = some v := by
  simp [lookupFS, assoc_setAssoc]

theorem lookupFS_setAssoc_dir_cons (fs : FS) (d : String) (ch : FS) (qrest : List String)
    (h : qrest ≠ []) :
    lookupFS (setAssoc fs d (.dir ch)) (d :: qrest) = lookupFS ch qrest := by
  cases qrest with
  | nil => exact absurd rfl h
  | cons a b => simp [lookupFS, assoc_setAssoc]

theorem lookupFS_setAssoc_file_cons (fs : FS) (d : String) (c : String) (qrest : List String)
    (h : qrest ≠ []) :
    lookupFS (setAssoc fs d (.file c)) (d :: qrest) = none := by
  cases qrest with
  | nil => exact absurd rfl h
  | cons a b => simp [lookupFS, assoc_setAssoc]

/-! ### Unfolding lemmas -/

theorem lookupFS_single (fs : FS) (c : String) : lookupFS fs [c] = assoc fs c := rfl

theorem lookupFS_cons_dir (fs : FS) (c : String) (rest : List String) (ch : FS)
    (ha : assoc fs c = some (.dir ch)) (hne : rest ≠ []) :
    lookupFS fs (c :: rest) = lookupFS ch rest := by
  cases rest with
  | nil => exact absurd rfl hne
  | cons a b => simp [lookupFS, ha]

theorem lookupFS_cons_none (fs : FS) (c : String) (rest : List String)
    (ha : assoc fs c = none) (hne : rest ≠ []) :
    lookupFS fs (c :: rest) = none := by
  cases rest with
  | nil => exact absurd rfl hne
  | cons a b => simp [lookupFS, ha]

theorem lookupFS_cons_file (fs : FS) (c : String) (rest : List String) (c₀ : String)
    (ha : assoc fs c = some (.file c₀)) (hne : rest ≠ []) :
    lookupFS fs (c :: rest) = none := by
  cases rest with
  | nil => exact absurd rfl hne
  | cons a b => simp [lookupFS, ha]

theorem makedirsComps_cons_dir (fs : FS) (d : String) (rest : List String) (ch : FS)
    (ha : assoc fs d = some (.dir ch)) :
    makedirsComps fs (d :: rest) =
      Except.map (fun ch' => setAssoc fs d (.dir ch')) (makedirsComps ch rest) := by
  simp only [makedirsComps, ha]

theorem makedirsComps_cons_none (fs : FS) (d : String) (rest : List String)
    (ha : assoc fs d = none) :
    makedirsComps fs (d :: rest) =
      Except.map (fun ch' => setAssoc fs d (.dir ch')) (makedirsComps ([] : FS) rest) := by
  simp only [makedirsComps, ha]

theorem makedirsComps_cons_file (fs : FS) (d : String) (rest : List String) (c₀ : String)
    (ha : assoc fs d = some (.file c₀)) :
    makedirsComps fs (d :: rest) = .error () := by
  simp only [makedirsComps, ha]

/-! ### Lemmas about `makedirsComps` -/

theorem makedirsComps_preserves_file (comps : List String) :
    ∀ fs fs' q c, makedirsComps fs comps = .ok fs' →
      lookupFS fs q = some (.file c) → lookupFS fs' q = some (.file c) := by
  induction comps with
  | nil =>
    intro fs fs' q c h hq
    simp [makedirsComps] at h
    exact h ▸ hq
  | cons d rest ih =>
    intro fs fs' q c h hq
    simp only [makedirsComps] at h
    cases ha : assoc fs d with
    | some node =>
      cases node with
      | file c₀ => rw [ha] at h; simp at h
      | dir ch =>
        rw [ha] at h
        simp only [Except.map] at h
        cases hm : makedirsComps ch rest with
        | error e => rw [hm] at h; simp [Except.map] at h
        | ok ch' =>
          rw [hm] at h
          simp [Except.map] at h
          subst h
          cases q with
          | nil => simp [lookupFS] at hq
          | cons qc qrest =>
            by_cases hqc : d = qc
            · subst hqc
              cases qrest with
              | nil => simp [lookupFS, ha] at hq
              | cons a b =>
                simp only [lookupFS, ha] at hq
                rw [lookupFS_setAssoc_dir_cons _ _ _ _ (by simp)]
                exact ih ch ch' (a :: b) c hm hq
            · rw [lookupFS_setAssoc_ne _ _ _ _ _ hqc]
              exact hq
    | none =>
      rw [ha] at h
      simp only [Except.map] at h
      cases hm : makedirsComps ([] : FS) rest with
      | error e => rw [hm] at h; simp [Except.map] at h
      | ok ch' =>
        rw [hm] at h
        simp [Except.map] at h
        subst h
        cases q with
        | nil => simp [lookupFS] at hq
        | cons qc qrest =>
          by_cases hqc : d = qc
          · subst hqc
            cases qrest with
            | nil => simp [lookupFS, ha] at hq
            | cons a b => simp [lookupFS, ha] at hq
          · rw [lookupFS_setAssoc_ne _ _ _ _ _ hqc]
            exact hq

theorem makedirsComps_preserves_dir (comps : List String) :
    ∀ fs fs' q, makedirsComps fs comps = .ok fs' →
      (∃ ch, lookupFS fs q = some (.dir ch)) →
      ∃ ch, lookupFS fs' q = some (.dir ch) := by
  induction comps with
  | nil =>
    intro fs fs' q h hq
    simp [makedirsComps] at h
    exact h ▸ hq
  | cons d rest ih =>
    intro fs fs' q h hq
    obtain ⟨ch₀, hq⟩ := hq
    simp only [makedirsComps] at h
    cases ha : assoc fs d with
    | some node =>
      cases node with
      | file c₀ => rw [ha] at h; simp at h
      | dir ch =>
        rw [ha] at h
        simp only [Except.map] at h
        cases hm : makedirsComps ch rest with
        | error e => rw [hm] at h; simp [Except.map] at h
        | ok ch' =>
          rw [hm] at h
          simp [Except.map] at h
          subst h
          cases q with
          | nil => simp [lookupFS] at hq
          | cons qc qrest =>
            by_cases hqc : d = qc
            · subst hqc
              cases qrest with
              | nil => exact ⟨ch', lookupFS_setAssoc_nil _ _ _⟩
              | cons a b =>
                simp only [lookupFS, ha] at hq
                rw [lookupFS_setAssoc_dir_cons _ _ _ _ (by simp)]
                exact ih ch ch' (a :: b) hm ⟨ch₀, hq⟩
            · rw [lookupFS_setAssoc_ne _ _ _ _ _ hqc]
              exact ⟨ch₀, hq⟩
    | none =>
      rw [ha] at h
      simp only [Except.map] at h
      cases hm : makedirsComps ([] : FS) rest with
      | error e => rw [hm] at h; simp [Except.map] at h
      | ok ch' =>
        rw [hm] at h
        simp [Except.map] at h
        subst h
        cases q with
        | nil => simp [lookupFS] at hq
        | cons qc qrest =>
          by_cases hqc : d = qc
          · subst hqc
            cases qrest with
            | nil => simp [lookupFS, ha] at hq
            | cons a b => simp [lookupFS, ha] at hq
          · rw [lookupFS_setAssoc_ne _ _ _ _ _ hqc]
            exact ⟨ch₀, hq⟩

theorem makedirsComps_establishes (comps : List String) :
    ∀ fs fs', makedirsComps fs comps = .ok fs' → comps ≠ [] →
      ∃ ch, lookupFS fs' comps = some (.dir ch) := by
  induction comps with
  | nil => intro fs fs' _ hne; exact absurd rfl hne
  | cons d rest ih =>
    intro fs fs' h _
    simp only [makedirsComps] at h
    cases ha : assoc fs d with
    | some node =>
      cases node with
      | file c₀ => rw [ha] at h; simp at h
      | dir ch =>
        rw [ha] at h
        simp only [Except.map] at h
        cases hm : makedirsComps ch rest with
        | error e => rw [hm] at h; simp [Except.map] at h
        | ok ch' =>
          rw [hm] at h
          simp [Except.map] at h
          subst h
          cases rest with
          | nil => exact ⟨ch', lookupFS_setAssoc_nil _ _ _⟩
          | cons a b =>
            rw [lookupFS_setAssoc_dir_cons _ _ _ _ (by simp)]
            exact ih ch ch' hm (by simp)
    | none =>
      rw [ha] at h
      simp only [Except.map] at h
      cases hm : makedirsComps ([] : FS) rest with
      | error e => rw [hm] at h; simp [Except.map] at h
      | ok ch' =>
        rw [hm] at h
        simp [Except.map] at h
        subst h
        cases rest with
        | nil => exact ⟨ch', lookupFS_setAssoc_nil _ _ _⟩
        | cons a b =>
          rw [lookupFS_setAssoc_dir_cons _ _ _ _ (by simp)]
          exact ih ([] : FS) ch' hm (by simp)

theorem makedirsComps_noop (comps : List String) :
    ∀ fs ch, lookupFS fs comps = some (.dir ch) → makedirsComps fs comps = .ok fs := by
  induction comps with
  | nil => intro fs ch h; simp [lookupFS] at h
  | cons d rest ih =>
    intro fs ch h
    cases rest with
    | nil =>
      simp only [lookupFS] at h
      simp [makedirsComps, h, Except.map, setAssoc_self fs d _ h]
    | cons a b =>
      cases ha : assoc fs d with
      | none => rw [lookupFS_cons_none fs d (a :: b) ha (by simp)] at h; simp at h
      | some node =>
        cases node with
        | file c₀ => rw [lookupFS_cons_file fs d (a :: b) c₀ ha (by simp)] at h; simp at h
        | dir ch₁ =>
          rw [lookupFS_cons_dir fs d (a :: b) ch₁ ha (by simp)] at h
          rw [makedirsComps_cons_dir fs d (a :: b) ch₁ ha, ih ch₁ ch h]
          simp [Except.map, setAssoc_self fs d _ ha]

/-! ### Lemmas about `writeFileAux` -/

theorem writeFileAux_single_none (fs : FS) (c ct : String) (ha : assoc fs c = none) :
    writeFileAux fs [c] ct = .ok (setAssoc fs c (.file ct)) := by
  simp only [writeFileAux, ha]

theorem writeFileAux_single_file (fs : FS) (c ct c₀ : String)
    (ha : assoc fs c = some (.file c₀)) :
    writeFileAux fs [c] ct = .ok (setAssoc fs c (.file ct)) := by
  simp only [writeFileAux, ha]

theorem writeFileAux_single_dir (fs : FS) (c ct : String) (ch : FS)
    (ha : assoc fs c = some (.dir ch)) :
    writeFileAux fs [c] ct = .error () := by
  simp only [writeFileAux, ha]

theorem writeFileAux_cons_dir (fs : FS) (c : String) (rest : List String) (ct : String)
    (ch : FS) (ha : assoc fs c = some (.dir ch)) (hne : rest ≠ []) :
    writeFileAux fs (c :: rest) ct =
      Except.map (fun ch' => setAssoc fs c (.dir ch')) (writeFileAux ch rest ct) := by
  cases rest with
  | nil => exact absurd rfl hne
  | cons a b => simp only [writeFileAux, ha]

theorem writeFileAux_cons_none (fs : FS) (c : String) (rest : List String) (ct : String)
    (ha : assoc fs c = none) (hne : rest ≠ []) :
    writeFileAux fs (c :: rest) ct = .error () := by
  cases rest with
  | nil => exact absurd rfl hne
  | cons a b => simp only [writeFileAux, ha]

theorem writeFileAux_cons_file (fs : FS) (c : String) (rest : List String) (ct c₀ : String)
    (ha : assoc fs c = some (.file c₀)) (hne : rest ≠ []) :
    writeFileAux fs (c :: rest) ct = .error () := by
  cases rest with
  | nil => exact absurd rfl hne
  | cons a b => simp only [writeFileAux, ha]

theorem writeFileAux_establishes (comps : List String) :
    ∀ fs fs' ct, writeFileAux fs comps ct = .ok fs' →
      lookupFS fs' comps = some (.file ct) := by
  induction comps with
  | nil => intro fs fs' ct h; simp [writeFileAux] at h
  | cons c rest ih =>
    intro fs fs' ct h
    cases rest with
    | nil =>
      cases ha : assoc fs c with
      | none =>
        rw [writeFileAux_single_none fs c ct ha] at h
        simp at h
        subst h
        exact lookupFS_setAssoc_nil _ _ _
      | some node =>
        cases node with
        | file c₀ =>
          rw [writeFileAux_single_file fs c ct c₀ ha] at h
          simp at h
          subst h
          exact lookupFS_setAssoc_nil _ _ _
        | dir ch =>
          rw [writeFileAux_single_dir fs c ct ch ha] at h
          simp at h
    | cons a b =>
      cases ha : assoc fs c with
      | none => rw [writeFileAux_cons_none fs c (a :: b) ct ha (by simp)] at h; simp at h
      | some node =>
        cases node with
        | file c₀ =>
          rw [writeFileAux_cons_file fs c (a :: b) ct c₀ ha (by simp)] at h
          simp at h
        | dir ch =>
          rw [writeFileAux_cons_dir fs c (a :: b) ct ch ha (by simp)] at h
          cases hm : writeFileAux ch (a :: b) ct with
          | error e => rw [hm] at h; simp [Except.map] at h
          | ok ch' =>
            rw [hm] at h
            simp [Except.map] at h
            subst h
            rw [lookupFS_setAssoc_dir_cons _ _ _ _ (by simp)]
            exact ih ch ch' ct hm

theorem writeFileAux_preserves_dir (comps : List String) :
    ∀ fs fs' q ct, writeFileAux fs comps ct = .ok fs' →
      (∃ ch, lookupFS fs q = some (.dir ch)) →
      ∃ ch, lookupFS fs' q = some (.dir ch) := by
  induction comps with
  | nil => intro fs fs' q ct h _; simp [writeFileAux] at h
  | cons c rest ih =>
    intro fs fs' q ct h hq
    obtain ⟨ch₀, hq⟩ := hq
    cases rest with
    | nil =>
      have hset : ∃ n, (n = Node.file ct) ∧ fs' = setAssoc fs c (.file ct) ∧
          (assoc fs c = none ∨ ∃ c₀, assoc fs c = some (.file c₀)) := by
        cases ha : assoc fs c with
        | none =>
          rw [writeFileAux_single_none fs c ct ha] at h
          simp at h
          exact ⟨Node.file ct, rfl, h.symm, Or.inl rfl⟩
        | some node =>
          cases node with
          | file c₀ =>
            rw [writeFileAux_single_file fs c ct c₀ ha] at h
            simp at h
            exact ⟨Node.file ct, rfl, h.symm, Or.inr ⟨c₀, rfl⟩⟩
          | dir ch =>
            rw [writeFileAux_single_dir fs c ct ch ha] at h
            simp at h
      obtain ⟨_, _, hfs', hnd⟩ := hset
      subst hfs'
      cases q with
      | nil => simp [lookupFS] at hq
      | cons qc qrest =>
        by_cases hqc : c = qc
        · subst hqc
          cases qrest with
          | nil =>
            rw [lookupFS_single] at hq
            rcases hnd with hnone | ⟨c₀, hfile⟩
            · rw [hnone] at hq; simp at hq
            · rw [hfile] at hq; simp at hq
          | cons a b =>
            rcases hnd with hnone | ⟨c₀, hfile⟩
            · rw [lookupFS_cons_none fs c (a :: b) hnone (by simp)] at hq; simp at hq
            · rw [lookupFS_cons_file fs c (a :: b) c₀ hfile (by simp)] at hq; simp at hq
        · rw [lookupFS_setAssoc_ne _ _ _ _ _ hqc]
          exact ⟨ch₀, hq⟩
    | cons a b =>
      cases ha : assoc fs c with
      | none => rw [writeFileAux_cons_none fs c (a :: b) ct ha (by simp)] at h; simp at h
      | some node =>
        cases node with
        | file c₀ =>
          rw [writeFileAux_cons_file fs c (a :: b) ct c₀ ha (by simp)] at h
          simp at h
        | dir ch =>
          rw [writeFileAux_cons_dir fs c (a :: b) ct ch ha (by simp)] at h
          cases hm : writeFileAux ch (a :: b) ct with
          | error e => rw [hm] at h; simp [Except.map] at h
          | ok ch' =>
            rw [hm] at h
            simp [Except.map] at h
            subst h
            cases q with
            | nil => simp [lookupFS] at hq
            | cons qc qrest =>
              by_cases hqc : c = qc
              · subst hqc
                cases qrest with
                | nil => exact ⟨ch', lookupFS_setAssoc_nil _ _ _⟩
                | cons x y =>
                  rw [lookupFS_cons_dir fs c (x :: y) ch ha (by simp)] at hq
                  rw [lookupFS_setAssoc_dir_cons _ _ _ _ (by simp)]
                  exact ih ch ch' (x :: y) ct hm ⟨ch₀, hq⟩
              · rw [lookupFS_setAssoc_ne _ _ _ _ _ hqc]
                exact ⟨ch₀, hq⟩

theorem writeFileAux_preserves_same_file (comps : List String) :
    ∀ fs fs' q ct, writeFileAux fs comps ct = .ok fs' →
      lookupFS fs q = some (.file ct) → lookupFS fs' q = some (.file ct) := by
  induction comps with
  | nil => intro fs fs' q ct h _; simp [writeFileAux] at h
  | cons c rest ih =>
    intro fs fs' q ct h hq
    cases rest with
    | nil =>
      have hset : fs' = setAssoc fs c (.file ct) ∧
          (assoc fs c = none ∨ ∃ c₀, assoc fs c = some (.file c₀)) := by
        cases ha : assoc fs c with
        | none =>
          rw [writeFileAux_single_none fs c ct ha] at h
          simp at h
          exact ⟨h.symm, Or.inl rfl⟩
        | some node =>
          cases node with
          | file c₀ =>
            rw [writeFileAux_single_file fs c ct c₀ ha] at h
            simp at h
            exact ⟨h.symm, Or.inr ⟨c₀, rfl⟩⟩
          | dir ch =>
            rw [writeFileAux_single_dir fs c ct ch ha] at h
            simp at h
      obtain ⟨hfs', hnd⟩ := hset
      subst hfs'
      cases q with
      | nil => simp [lookupFS] at hq
      | cons qc qrest =>
        by_cases hqc : c = qc
        · subst hqc
          cases qrest with
          | nil => exact lookupFS_setAssoc_nil _ _ _
          | cons a b =>
            rcases hnd with hnone | ⟨c₀, hfile⟩
            · rw [lookupFS_cons_none fs c (a :: b) hnone (by simp)] at hq; simp at hq
            · rw [lookupFS_cons_file fs c (a :: b) c₀ hfile (by simp)] at hq; simp at hq
        · rw [lookupFS_setAssoc_ne _ _ _ _ _ hqc]
          exact hq
    | cons a b =>
      cases ha : assoc fs c with
      | none => rw [writeFileAux_cons_none fs c (a :: b) ct ha (by simp)] at h; simp at h
      | some node =>
        cases node with
        | file c₀ =>
          rw [writeFileAux_cons_file fs c (a :: b) ct c₀ ha (by simp)] at h
          simp at h
        | dir ch =>
          rw [writeFileAux_cons_dir fs c (a :: b) ct ch ha (by simp)] at h
          cases hm : writeFileAux ch (a :: b) ct with
          | error e => rw [hm] at h; simp [Except.map] at h
          | ok ch' =>
            rw [hm] at h
            simp [Except.map] at h
            subst h
            cases q with
            | nil => simp [lookupFS] at hq
            | cons qc qrest =>
              by_cases hqc : c = qc
              · subst hqc
                cases qrest with
                | nil =>
                  rw [lookupFS_single, ha] at hq
                  simp at hq
                | cons x y =>
                  rw [lookupFS_cons_dir fs c (x :: y) ch ha (by simp)] at hq
                  rw [lookupFS_setAssoc_dir_cons _ _ _ _ (by simp)]
                  exact ih ch ch' (x :: y) ct hm hq
              · rw [lookupFS_setAssoc_ne _ _ _ _ _ hqc]
                exact hq

theorem writeFileAux_noop (comps : List String) :
    ∀ fs ct, lookupFS fs comps = some (.file ct) → writeFileAux fs comps ct = .ok fs := by
  induction comps with
  | nil => intro fs ct h; simp [lookupFS] at h
  | cons c rest ih =>
    intro fs ct h
    cases rest with
    | nil =>
      rw [lookupFS_single] at h
      rw [writeFileAux_single_file fs c ct ct h]
      rw [setAssoc_self fs c _ h]
    | cons a b =>
      cases ha : assoc fs c with
      | none => rw [lookupFS_cons_none fs c (a :: b) ha (by simp)] at h; simp at h
      | some node =>
        cases node with
        | file c₀ => rw [lookupFS_cons_file fs c (a :: b) c₀ ha (by simp)] at h; simp at h
        | dir ch₁ =>
          rw [lookupFS_cons_dir fs c (a :: b) ch₁ ha (by simp)] at h
          rw [writeFileAux_cons_dir fs c (a :: b) ct ch₁ ha (by simp), ih ch₁ ct h]
          simp [Except.map, setAssoc_self fs c _ ha]

/-! ### Path-level lemmas: `makedirs`, `writeFile`, `create_file` -/

theorem isDir_iff (fs : FS) (p : String) :
    isDir fs p = true ↔ ∃ ch, lookupFS fs (splitPath p) = some (.dir ch) := by
  unfold isDir
  cases h : lookupFS fs (splitPath p) with
  | none => simp
  | some node => cases node <;> simp

theorem fileContent_iff (fs : FS) (p : String) (c : String) :
    fileContent fs p = some c ↔ lookupFS fs (splitPath p) = some (.file c) := by
  unfold fileContent
  cases h : lookupFS fs (splitPath p) with
  | none => simp
  | some node => cases node <;> simp

theorem makedirs_ok_ne (fs fs' : FS) (p : String) (h : makedirs fs p = .ok fs') :
    p ≠ "" := by
  intro hp
  rw [hp] at h
  simp [makedirs] at h

theorem makedirs_establishes (fs fs' : FS) (p : String) (h : makedirs fs p = .ok fs') :
    isDir fs' p = true := by
  have hp : p ≠ "" := makedirs_ok_ne fs fs' p h
  rw [makedirs, if_neg hp] at h
  rw [isDir_iff]
  exact makedirsComps_establishes (splitPath p) fs fs' h (splitPath_ne_nil p)

theorem makedirs_preserves_dir (fs fs' : FS) (p q : String)
    (h : makedirs fs p = .ok fs') (hq : isDir fs q = true) : isDir fs' q = true := by
  have hp : p ≠ "" := makedirs_ok_ne fs fs' p h
  rw [makedirs, if_neg hp] at h
  rw [isDir_iff] at hq ⊢
  exact makedirsComps_preserves_dir (splitPath p) fs fs' (splitPath q) h hq

theorem makedirs_preserves_file (fs fs' : FS) (p q : String) (c : String)
    (h : makedirs fs p = .ok fs') (hq : fileContent fs q = some c) :
    fileContent fs' q = some c := by
  have hp : p ≠ "" := makedirs_ok_ne fs fs' p h
  rw [makedirs, if_neg hp] at h
  rw [fileContent_iff] at hq ⊢
  exact makedirsComps_preserves_file (splitPath p) fs fs' (splitPath q) c h hq

theorem makedirs_noop (fs : FS) (p : String) (hp : p ≠ "") (hd : isDir fs p = true) :
    makedirs fs p = .ok fs := by
  rw [isDir_iff] at hd
  obtain ⟨ch, hd⟩ := hd
  rw [makedirs, if_neg hp]
  exact makedirsComps_noop (splitPath p) fs ch hd

theorem writeFile_ok_ne (fs fs' : FS) (p ct : String) (h : writeFile fs p ct = .ok fs') :
    p ≠ "" := by
  intro hp
  rw [hp] at h
  simp [writeFile] at h

theorem writeFile_establishes (fs fs' : FS) (p ct : String)
    (h : writeFile fs p ct = .ok fs') : fileContent fs' p = some ct := by
  have hp : p ≠ "" := writeFile_ok_ne fs fs' p ct h
  rw [writeFile, if_neg hp] at h
  rw [fileContent_iff]
  exact writeFileAux_establishes (splitPath p) fs fs' ct h

theorem writeFile_preserves_dir (fs fs' : FS) (p ct q : String)
    (h : writeFile fs p ct = .ok fs') (hq : isDir fs q = true) : isDir fs' q = true := by
  have hp : p ≠ "" := writeFile_ok_ne fs fs' p ct h
  rw [writeFile, if_neg hp] at h
  rw [isDir_iff] at hq ⊢
  exact writeFileAux_preserves_dir (splitPath p) fs fs' (splitPath q) ct h hq

theorem writeFile_preserves_same_file (fs fs' : FS) (p ct q : String)
    (h : writeFile fs p ct = .ok fs') (hq : fileContent fs q = some ct) :
    fileContent fs' q = some ct := by
  have hp : p ≠ "" := writeFile_ok_ne fs fs' p ct h
  rw [writeFile, if_neg hp] at h
  rw [fileContent_iff] at hq ⊢
  exact writeFileAux_preserves_same_file (splitPath p) fs fs' (splitPath q) ct h hq

theorem writeFile_noop (fs : FS) (p ct : String) (hp : p ≠ "")
    (hc : fileContent fs p = some ct) : writeFile fs p ct = .ok fs := by
  rw [fileContent_iff] at hc
  rw [writeFile, if_neg hp]
  exact writeFileAux_noop (splitPath p) fs ct hc

theorem create_file_elim (fs fs' : FS) (p ct : String)
    (h : create_file fs p ct = .ok fs') :
    ∃ fs₁, makedirs fs (dirname p) = .ok fs₁ ∧ writeFile fs₁ p ct = .ok fs' := by
  rw [create_file] at h
  cases hm : makedirs fs (dirname p) with
  | error e => rw [hm] at h; simp [Bind.bind, Except.bind] at h
  | ok fs₁ =>
    rw [hm] at h
    simp [Bind.bind, Except.bind] at h
    exact ⟨fs₁, rfl, h⟩

theorem create_file_intro (fs fs₁ fs' : FS) (p ct : String)
    (hm : makedirs fs (dirname p) = .ok fs₁) (hw : writeFile fs₁ p ct = .ok fs') :
    create_file fs p ct = .ok fs' := by
  rw [create_file, hm]
  simpa [Bind.bind, Except.bind] using hw

theorem create_file_establishes (fs fs' : FS) (p ct : String)
    (h : create_file fs p ct = .ok fs') :
    fileContent fs' p = some ct ∧ isDir fs' (dirname p) = true := by
  obtain ⟨fs₁, hm, hw⟩ := create_file_elim fs fs' p ct h
  refine ⟨writeFile_establishes fs₁ fs' p ct hw, ?_⟩
  exact writeFile_preserves_dir fs₁ fs' p ct (dirname p) hw
    (makedirs_establishes fs fs₁ (dirname p) hm)

theorem create_file_preserves_dir (fs fs' : FS) (p ct q : String)
    (h : create_file fs p ct = .ok fs') (hq : isDir fs q = true) : isDir fs' q = true := by
  obtain ⟨fs₁, hm, hw⟩ := create_file_elim fs fs' p ct h
  exact writeFile_preserves_dir fs₁ fs' p ct q hw (makedirs_preserves_dir fs fs₁ (dirname p) q hm hq)

theorem create_file_preserves_same_file (fs fs' : FS) (p ct q : String)
    (h : create_file fs p ct = .ok fs') (hq : fileContent fs q = some ct) :
    fileContent fs' q = some ct := by
  obtain ⟨fs₁, hm, hw⟩ := create_file_elim fs fs' p ct h
  exact writeFile_preserves_same_file fs₁ fs' p ct q hw
    (makedirs_preserves_file fs fs₁ (dirname p) q ct hm hq)

theorem create_file_ok_ne (fs fs' : FS) (p ct : String)
    (h : create_file fs p ct = .ok fs') : p ≠ "" ∧ dirname p ≠ "" := by
  obtain ⟨fs₁, hm, hw⟩ := create_file_elim fs fs' p ct h
  exact ⟨writeFile_ok_ne fs₁ fs' p ct hw, makedirs_ok_ne fs fs₁ (dirname p) hm⟩

theorem create_file_noop (fs : FS) (p ct : String) (hp : p ≠ "") (hdp : dirname p ≠ "")
    (hd : isDir fs (dirname p) = true) (hc : fileContent fs p = some ct) :
    create_file fs p ct = .ok fs :=
  create_file_intro fs fs fs p ct (makedirs_noop fs (dirname p) hdp hd)
    (writeFile_noop fs p ct hp hc)

/-! ### Run-level lemmas -/

theorem run_append (ops₁ ops₂ : List Op) : ∀ fs, run fs (ops₁ ++ ops₂) =
    match run fs ops₁ with
    | .ok fs₁ => run fs₁ ops₂
    | .error e => .error e := by
  induction ops₁ with
  | nil => intro fs; simp [run]
  | cons op rest ih =>
    intro fs
    cases hop : runOp fs op with
    | error e => simp [run, hop]
    | ok fs₁ => simp [run, hop, ih]

theorem run_preserves_dir (ops : List Op) :
    ∀ fs fs' q, run fs ops = .ok fs' → isDir fs q = true → isDir fs' q = true := by
  induction ops with
  | nil =>
    intro fs fs' q h hq
    simp [run] at h
    exact h ▸ hq
  | cons op rest ih =>
    intro fs fs' q h hq
    cases hop : runOp fs op with
    | error e => simp [run, hop] at h
    | ok fs₁ =>
      simp only [run, hop] at h
      refine ih fs₁ fs' q h ?_
      cases op with
      | mkdirs p => exact makedirs_preserves_dir fs fs₁ p q hop hq
      | write p c => exact create_file_preserves_dir fs fs₁ p c q hop hq

theorem run_preserves_file (ops : List Op) :
    ∀ fs fs' q ct, run fs ops = .ok fs' → AllWrites ops ct →
      fileContent fs q = some ct → fileContent fs' q = some ct := by
  induction ops with
  | nil =>
    intro fs fs' q ct h _ hq
    simp [run] at h
    exact h ▸ hq
  | cons op rest ih =>
    intro fs fs' q ct h hw hq
    cases hop : runOp fs op with
    | error e => simp [run, hop] at h
    | ok fs₁ =>
      simp only [run, hop] at h
      have hw' : AllWrites rest ct := fun p c hm => hw p c (List.mem_cons_of_mem _ hm)
      refine ih fs₁ fs' q ct h hw' ?_
      cases op with
      | mkdirs p => exact makedirs_preserves_file fs fs₁ p q ct hop hq
      | write p c =>
        have hc : c = ct := hw p c (List.mem_cons_self _ _)
        subst hc
        exact create_file_preserves_same_file fs fs₁ p c q hop hq

theorem run_establishes_dir (ops : List Op) :
    ∀ fs fs' p, run fs ops = .ok fs' → Op.mkdirs p ∈ ops → isDir fs' p = true := by
  induction ops with
  | nil => intro fs fs' p _ hm; simp at hm
  | cons op rest ih =>
    intro fs fs' p h hm
    cases hop : runOp fs op with
    | error e => simp [run, hop] at h
    | ok fs₁ =>
      simp only [run, hop] at h
      rcases List.mem_cons.mp hm with heq | hmem
      · subst heq
        exact run_preserves_dir rest fs₁ fs' p h (makedirs_establishes fs fs₁ p hop)
      · exact ih fs₁ fs' p h hmem

theorem run_establishes_file (ops : List Op) :
    ∀ fs fs' p ct, run fs ops = .ok fs' → Op.write p ct ∈ ops → AllWrites ops ct →
      fileContent fs' p = some ct := by
  induction ops with
  | nil => intro fs fs' p ct _ hm; simp at hm
  | cons op rest ih =>
    intro fs fs' p ct h hm hw
    have hw' : AllWrites rest ct := fun q c hq => hw q c (List.mem_cons_of_mem _ hq)
    cases hop : runOp fs op with
    | error e => simp [run, hop] at h
    | ok fs₁ =>
      simp only [run, hop] at h
      rcases List.mem_cons.mp hm with heq | hmem
      · subst heq
        exact run_preserves_file rest fs₁ fs' p ct h hw'
          (create_file_establishes fs fs₁ p ct hop).1
      · exact ih fs₁ fs' p ct h hmem hw'

theorem run_establishes_parent (ops : List Op) :
    ∀ fs fs' p ct, run fs ops = .ok fs' → Op.write p ct ∈ ops →
      isDir fs' (dirname p) = true := by
  induction ops with
  | nil => intro fs fs' p ct _ hm; simp at hm
  | cons op rest ih =>
    intro fs fs' p ct h hm
    cases hop : runOp fs op with
    | error e => simp [run, hop] at h
    | ok fs₁ =>
      simp only [run, hop] at h
      rcases List.mem_cons.mp hm with heq | hmem
      · subst heq
        exact run_preserves_dir rest fs₁ fs' (dirname p) h
          (create_file_establishes fs fs₁ p ct hop).2
      · exact ih fs₁ fs' p ct h hmem

theorem run_ok_op (ops : List Op) :
    ∀ fs fs' op, run fs ops = .ok fs' → op ∈ ops → ∃ g g', runOp g op = .ok g' := by
  induction ops with
  | nil => intro fs fs' op _ hm; simp at hm
  | cons op₀ rest ih =>
    intro fs fs' op h hm
    cases hop : runOp fs op₀ with
    | error e => simp [run, hop] at h
    | ok fs₁ =>
      simp only [run, hop] at h
      rcases List.mem_cons.mp hm with heq | hmem
      · subst heq
        exact ⟨fs, fs₁, hop⟩
      · exact ih fs₁ fs' op h hmem

theorem runOp_noop (fs : FS) (op : Op) (h : NoopReady fs op) : runOp fs op = .ok fs := by
  cases op with
  | mkdirs p => exact makedirs_noop fs p h.1 h.2
  | write p c => exact create_file_noop fs p c h.1 h.2.1 h.2.2.1 h.2.2.2

theorem run_noop (ops : List Op) : ∀ fs, (∀ op ∈ ops, NoopReady fs op) →
    run fs ops = .ok fs := by
  induction ops with
  | nil => intro fs _; simp [run]
  | cons op rest ih =>
    intro fs h
    simp only [run, runOp_noop fs op (h op (List.mem_cons_self _ _))]
    exact ih fs (fun o ho => h o (List.mem_cons_of_mem _ ho))

theorem run_ready (ops : List Op) (fs fs' : FS) (ct : String)
    (h : run fs ops = .ok fs') (hw : AllWrites ops ct) :
    ∀ op ∈ ops, NoopReady fs' op := by
  intro op hm
  cases op with
  | mkdirs p =>
    obtain ⟨g, g', hg⟩ := run_ok_op ops fs fs' _ h hm
    exact ⟨makedirs_ok_ne g g' p hg, run_establishes_dir ops fs fs' p h hm⟩
  | write p c =>
    obtain ⟨g, g', hg⟩ := run_ok_op ops fs fs' _ h hm
    have hne := create_file_ok_ne g g' p c hg
    have hc : c = ct := hw p c hm
    subst hc
    exact ⟨hne.1, hne.2, run_establishes_parent ops fs fs' p c h hm,
      run_establishes_file ops fs fs' p c h hm hw⟩

/-- A successful run reaches a fixpoint: running the same steps again from the
resulting state succeeds and changes nothing (all writes carry one content). -/
theorem run_idem (ops : List Op) (fs fs' : FS) (ct : String)
    (h : run fs ops = .ok fs') (hw : AllWrites ops ct) : run fs' ops = .ok fs' :=
  run_noop ops fs' (run_ready ops fs fs' ct h hw)

/-! ### `create_directory_structure` as a run of `programOps` -/

theorem run_nil (fs : FS) : run fs [] = .ok fs := rfl

theorem run_cons (fs : FS) (op : Op) (ops : List Op) :
    run fs (op :: ops) = Except.bind (runOp fs op) (fun f => run f ops) := by
  cases h : runOp fs op <;> simp [run, h, Except.bind]

theorem except_bind_eq (x : Except Unit FS) (f : FS → Except Unit FS) :
    x >>= f = Except.bind x f := rfl

theorem except_bind_assoc (x : Except Unit FS) (f g : FS → Except Unit FS) :
    Except.bind (Except.bind x f) g = Except.bind x (fun a => Except.bind (f a) g) := by
  cases x <;> rfl

theorem except_bind_ok (x : Except Unit FS) : Except.bind x Except.ok = x := by
  cases x <;> rfl

theorem run_append_bind (ops₁ ops₂ : List Op) (fs : FS) :
    run fs (ops₁ ++ ops₂) = Except.bind (run fs ops₁) (fun f => run f ops₂) := by
  rw [run_append]
  cases run fs ops₁ <;> rfl

theorem forFiles_eq_run (l : List String) : ∀ fs,
    forFiles fs l = run fs (l.map (fun file => Op.write (pathJoin base_dir file) "")) := by
  induction l with
  | nil => intro fs; simp [forFiles, run]
  | cons f rest ih =>
    intro fs
    simp only [forFiles, List.map_cons, run_cons, except_bind_eq, runOp]
    cases hc : create_file fs (pathJoin base_dir f) "" with
    | error e => simp [Except.bind, hc]
    | ok fs₁ => simp [Except.bind, hc, ih]

theorem forDirs_eq_run (l : List String) : ∀ fs,
    forDirs fs l = run fs (l.map (fun dir_path => Op.mkdirs (pathJoin base_dir dir_path))) := by
  induction l with
  | nil => intro fs; simp [forDirs, run]
  | cons d rest ih =>
    intro fs
    simp only [forDirs, List.map_cons, run_cons, except_bind_eq, runOp]
    cases hc : makedirs fs (pathJoin base_dir d) with
    | error e => simp [Except.bind, hc]
    | ok fs₁ => simp [Except.bind, hc, ih]

theorem forPairs_eq_run (l : List (String × String)) : ∀ fs,
    forPairs fs l = run fs (l.map (fun pc => Op.write (pathJoin base_dir pc.1) pc.2)) := by
  induction l with
  | nil => intro fs; simp [forPairs, run]
  | cons pc rest ih =>
    obtain ⟨fp, ct⟩ := pc
    intro fs
    simp only [forPairs, List.map_cons, run_cons, except_bind_eq, runOp]
    cases hc : create_file fs (pathJoin base_dir fp) ct with
    | error e => simp [Except.bind, hc]
    | ok fs₁ => simp [Except.bind, hc, ih]

/-- `create_directory_structure` performs exactly the steps of `programOps`,
in order. -/
theorem cds_eq_run (fs : FS) : create_directory_structure fs = run fs programOps := by
  simp only [create_directory_structure, except_bind_eq, forFiles_eq_run, forDirs_eq_run,
    forPairs_eq_run, programOps, run_append_bind, run_cons, run_nil, runOp,
    except_bind_assoc, except_bind_ok]

/-! ### Facts about the literal tables and `programOps` -/

theorem public_files_snd : ∀ pc ∈ public_files, pc.2 = "" := by decide

set_option maxRecDepth 10000 in
theorem src_files_snd : ∀ pc ∈ src_files, pc.2 = "" := by decide

/-- Every write step of the script carries the empty content. -/
theorem allWrites_program : AllWrites programOps "" := by
  intro p c hm
  simp only [programOps, List.mem_append, List.mem_map, List.mem_cons,
    List.mem_singleton, List.not_mem_nil, or_false] at hm
  rcases hm with ((((((((h | h) | h) | h) | h) | h) | h) | h) | h)
  · exact absurd h (by simp)
  · obtain ⟨a, _, ha⟩ := h
    exact ((Op.write.inj ha).2).symm
  · obtain ⟨a, _, ha⟩ := h
    exact absurd ha (by simp)
  · obtain ⟨a, hmem, ha⟩ := h
    exact ((Op.write.inj ha).2).symm.trans (public_files_snd a hmem)
  · obtain ⟨a, _, ha⟩ := h
    exact absurd ha (by simp)
  · obtain ⟨a, hmem, ha⟩ := h
    exact ((Op.write.inj ha).2).symm.trans (src_files_snd a hmem)
  · rcases h with h | h
    · exact absurd h (by simp)
    · exact (Op.write.inj h).2
  · obtain ⟨a, _, ha⟩ := h
    exact ((Op.write.inj ha).2).symm
  · obtain ⟨a, _, ha⟩ := h
    exact absurd ha (by simp)

theorem mem_ops_base : Op.mkdirs base_dir ∈ programOps := by
  unfold programOps
  apply List.mem_append_left
  apply List.mem_append_left
  apply List.mem_append_left
  apply List.mem_append_left
  apply List.mem_append_left
  apply List.mem_append_left
  apply List.mem_append_left
  apply List.mem_append_left
  exact List.mem_singleton.mpr rfl

theorem mem_ops_root (x : String) (hx : x ∈ root_files) :
    Op.write (pathJoin base_dir x) "" ∈ programOps := by
  unfold programOps
  apply List.mem_append_left
  apply List.mem_append_left
  apply List.mem_append_left
  apply List.mem_append_left
  apply List.mem_append_left
  apply List.mem_append_left
  apply List.mem_append_left
  apply List.mem_append_right
  exact List.mem_map_of_mem _ hx

theorem mem_ops_public_dirs (x : String) (hx : x ∈ public_dirs) :
    Op.mkdirs (pathJoin base_dir x) ∈ programOps := by
  unfold programOps
  apply List.mem_append_left
  apply List.mem_append_left
  apply List.mem_append_left
  apply List.mem_append_left
  apply List.mem_append_left
  apply List.mem_append_left
  apply List.mem_append_right
  exact List.mem_map_of_mem _ hx

theorem mem_ops_public_files (pc : String × String) (hx : pc ∈ public_files) :
    Op.write (pathJoin base_dir pc.1) pc.2 ∈ programOps := by
  unfold programOps
  apply List.mem_append_left
  apply List.mem_append_left
  apply List.mem_append_left
  apply List.mem_append_left
  apply List.mem_append_left
  apply List.mem_append_right
  exact List.mem_map_of_mem _ hx

theorem mem_ops_src_dirs (x : String) (hx : x ∈ src_dirs) :
    Op.mkdirs (pathJoin base_dir x) ∈ programOps := by
  unfold programOps
  apply List.mem_append_left
  apply List.mem_append_left
  apply List.mem_append_left
  apply List.mem_append_left
  apply List.mem_append_right
  exact List.mem_map_of_mem _ hx

theorem mem_ops_src_files (pc : String × String) (hx : pc ∈ src_files) :
    Op.write (pathJoin base_dir pc.1) pc.2 ∈ programOps := by
  unfold programOps
  apply List.mem_append_left
  apply List.mem_append_left
  apply List.mem_append_left
  apply List.mem_append_right
  exact List.mem_map_of_mem _ hx

theorem mem_ops_data_dir : Op.mkdirs (pathJoin base_dir "data") ∈ programOps := by
  unfold programOps
  apply List.mem_append_left
  apply List.mem_append_left
  apply List.mem_append_right
  exact List.mem_cons_self _ _

theorem mem_ops_data_file :
    Op.write (pathJoin base_dir "data/presale-pricing.json") "" ∈ programOps := by
  unfold programOps
  apply List.mem_append_left
  apply List.mem_append_left
  apply List.mem_append_right
  exact List.mem_cons_of_mem _ (List.mem_singleton.mpr rfl)

theorem mem_ops_docs (x : String) (hx : x ∈ docs_files) :
    Op.write (pathJoin base_dir x) "" ∈ programOps := by
  unfold programOps
  apply List.mem_append_left
  apply List.mem_append_right
  exact List.mem_map_of_mem _ hx

theorem mem_ops_test_dirs (x : String) (hx : x ∈ test_dirs) :
    Op.mkdirs (pathJoin base_dir x) ∈ programOps := by
  unfold programOps
  apply List.mem_append_right
  exact List.mem_map_of_mem _ hx

/-! ### Concrete runs and program-wide decidable facts -/

set_option maxRecDepth 400000 in
theorem run_empty_ok : create_directory_structure [] = .ok resultTree := rfl

set_option maxRecDepth 400000 in
theorem run_junk_ok : create_directory_structure junkStart = .ok junkResult := rfl

theorem dirname_docs :
    dirname (pathJoin base_dir "docs/API.md") = pathJoin base_dir "docs" := rfl

set_option maxRecDepth 10000 in
theorem program_write_dirname : ∀ op ∈ programOps, writeDirnameOk op = true := by decide

theorem root_files_safe : ∀ a ∈ root_files, SafeRel a := by decide

theorem public_dirs_safe : ∀ a ∈ public_dirs, SafeRel a := by decide

theorem public_files_safe : ∀ pc ∈ public_files, SafeRel pc.1 := by decide

set_option maxRecDepth 10000 in
theorem src_dirs_safe : ∀ a ∈ src_dirs, SafeRel a := by decide

set_option maxRecDepth 10000 in
theorem src_files_safe : ∀ pc ∈ src_files, SafeRel pc.1 := by decide

theorem docs_files_safe : ∀ a ∈ docs_files, SafeRel a := by decide

theorem test_dirs_safe : ∀ a ∈ test_dirs, SafeRel a := by decide

/-! ### Failure-path lemmas -/

theorem runP_fail (ops₁ : List Op) : ∀ fs fs₁ op ops₂, run fs ops₁ = .ok fs₁ →
    runOp fs₁ op = .error () → runP fs (ops₁ ++ op :: ops₂) = (fs₁, false) := by
  induction ops₁ with
  | nil =>
    intro fs fs₁ op ops₂ h hf
    simp [run] at h
    subst h
    simp [runP, hf]
  | cons op₀ rest ih =>
    intro fs fs₁ op ops₂ h hf
    cases hop : runOp fs op₀ with
    | error e => simp [run, hop] at h
    | ok g =>
      simp only [run, hop] at h
      simp only [List.cons_append, runP, hop]
      exact ih g fs₁ op ops₂ h hf

theorem run_fail (ops₁ ops₂ : List Op) (op : Op) (fs fs₁ : FS)
    (h : run fs ops₁ = .ok fs₁) (hf : runOp fs₁ op = .error ()) :
    run fs (ops₁ ++ op :: ops₂) = .error () := by
  rw [run_append_bind, h]
  simp [Except.bind, run_cons, hf]

/-! ### The materialization theorem -/

/-- After any successful run, every table directory exists and every table
file exists with exactly its table content. -/
theorem program_materializes (fs fs' : FS)
    (h : create_directory_structure fs = .ok fs') :
    (∀ d ∈ allDirs, isDir fs' d = true) ∧
    (∀ pc ∈ allFilePairs, fileContent fs' pc.1 = some pc.2) := by
  rw [cds_eq_run] at h
  constructor
  · intro d hd
    simp only [allDirs, List.mem_append, List.mem_map, List.mem_cons,
      List.mem_singleton, List.not_mem_nil, or_false] at hd
    rcases hd with (((hb | hpub) | hsrc) | hdd) | ht
    · subst hb
      exact run_establishes_dir programOps fs fs' base_dir h mem_ops_base
    · obtain ⟨a, ha, rfl⟩ := hpub
      exact run_establishes_dir programOps fs fs' _ h (mem_ops_public_dirs a ha)
    · obtain ⟨a, ha, rfl⟩ := hsrc
      exact run_establishes_dir programOps fs fs' _ h (mem_ops_src_dirs a ha)
    · rcases hdd with rfl | rfl
      · exact run_establishes_dir programOps fs fs' _ h mem_ops_data_dir
      · have hm := mem_ops_docs "docs/API.md" (by decide)
        have hp := run_establishes_parent programOps fs fs' _ "" h hm
        rwa [dirname_docs] at hp
    · obtain ⟨a, ha, rfl⟩ := ht
      exact run_establishes_dir programOps fs fs' _ h (mem_ops_test_dirs a ha)
  · intro pc hpc
    simp only [allFilePairs, List.mem_append, List.mem_map, List.mem_cons,
      List.mem_singleton, List.not_mem_nil, or_false] at hpc
    rcases hpc with (((hr | hp) | hs) | hdf) | hdocs
    · obtain ⟨a, ha, rfl⟩ := hr
      exact run_establishes_file programOps fs fs' _ "" h (mem_ops_root a ha)
        allWrites_program
    · obtain ⟨a, ha, rfl⟩ := hp
      show fileContent fs' (pathJoin base_dir a.1) = some a.2
      have h2 : a.2 = "" := public_files_snd a ha
      have hm := mem_ops_public_files a ha
      rw [h2] at hm ⊢
      exact run_establishes_file programOps fs fs' _ "" h hm allWrites_program
    · obtain ⟨a, ha, rfl⟩ := hs
      show fileContent fs' (pathJoin base_dir a.1) = some a.2
      have h2 : a.2 = "" := src_files_snd a ha
      have hm := mem_ops_src_files a ha
      rw [h2] at hm ⊢
      exact run_establishes_file programOps fs fs' _ "" h hm allWrites_program
    · subst hdf
      exact run_establishes_file programOps fs fs' _ "" h mem_ops_data_file
        allWrites_program
    · obtain ⟨a, ha, rfl⟩ := hdocs
      exact run_establishes_file programOps fs fs' _ "" h (mem_ops_docs a ha)
        allWrites_program

/-! ### The claims -/

/-- C1: after a successful run of `create_directory_structure`, every directory
path listed in its literal tables (the root, `public_dirs`, `src_dirs`, `data`,
`docs`, `test_dirs`) exists as a directory, and every file path listed exists
as a regular file whose content equals the associated content string exactly. -/
theorem c1_tables_materialized (fs fs' : FS)
    (h : create_directory_structure fs = .ok fs') :
    (∀ d ∈ allDirs, isDir fs' d = true) ∧
    (∀ pc ∈ allFilePairs, fileContent fs' pc.1 = some pc.2) :=
  program_materializes fs fs' h

/-- C1 witness: concrete instances from the run out of an empty working
directory. -/
theorem c1_tables_materialized_witness :
    isDir resultTree (pathJoin base_dir "data") = true ∧
    fileContent resultTree (pathJoin base_dir "README.md") = some "" :=
  ⟨(c1_tables_materialized [] resultTree run_empty_ok).1
      (pathJoin base_dir "data") (by decide),
   (c1_tables_materialized [] resultTree run_empty_ok).2
      (pathJoin base_dir "README.md", "") (by decide)⟩

/-- C2: `create_file` truncates/overwrites: whatever content a table file path
held before a successful materialization, afterwards it holds exactly the
table content (the literal default), so a rerun reverts out-of-band edits. -/
theorem c2_overwrites (fs fs' : FS) (pc : String × String) (c₀ : String)
    (hmem : pc ∈ allFilePairs) (_hbefore : fileContent fs pc.1 = some c₀)
    (h : create_directory_structure fs = .ok fs') :
    fileContent fs' pc.1 = some pc.2 :=
  (program_materializes fs fs' h).2 pc hmem

/-- C2 witness: `README.md` holds `"junk"` before the rerun and `""` after. -/
theorem c2_overwrites_witness :
    fileContent junkStart (pathJoin base_dir "README.md") = some "junk" ∧
    fileContent junkResult (pathJoin base_dir "README.md") = some "" :=
  ⟨rfl, c2_overwrites junkStart junkResult (pathJoin base_dir "README.md", "") "junk"
    (by decide) rfl run_junk_ok⟩

/-- C3 counterexample: the script writes the 12 root files before it creates
any directory of the listed directory sets — step 1 already writes
`README.md`, while `public/images/payment-methods` is only created at
step 13. -/
theorem c3_counterexample : ¬ FilesAfterListedDirs programOps := by
  intro hprop
  have h1 : programOps.get? 1 = some (Op.write (pathJoin base_dir "README.md") "") := by
    decide
  have h2 : programOps.get? 13 =
      some (Op.mkdirs (pathJoin base_dir "public/images/payment-methods")) := by decide
  have h3 : pathJoin base_dir "public/images/payment-methods" ∈ setDirPaths := by decide
  exact absurd (hprop 1 13 _ _ _ h1 h2 h3) (by omega)

/-- C3 amended: `create_directory_structure` creates the root first and then
executes exactly the steps of `programOps` in source order — the groups
(root files, public dirs, public files, src dirs, src files, data, docs
files, test dirs) in sequence, each group in its listed order; file-creation
steps of an earlier group run before directory-creation steps of a later
group. -/
theorem c3_groups_in_order :
    (∀ fs, create_directory_structure fs = run fs programOps) ∧
    programOps.get? 0 = some (Op.mkdirs base_dir) :=
  ⟨cds_eq_run, by decide⟩

/-- C4: `os.makedirs(..., exist_ok=True)` is a no-op on an existing directory,
and a second full materialization from the state a successful run produced
succeeds and leaves the tree (directories included) unchanged. -/
theorem c4_directories_idempotent :
    (∀ fs p, p ≠ "" → isDir fs p = true → makedirs fs p = .ok fs) ∧
    (∀ fs fs', create_directory_structure fs = .ok fs' →
      create_directory_structure fs' = .ok fs') := by
  refine ⟨fun fs p hp hd => makedirs_noop fs p hp hd, fun fs fs' h => ?_⟩
  rw [cds_eq_run] at h
  rw [cds_eq_run]
  exact run_idem programOps fs fs' "" h allWrites_program

/-- C4 witness: rerunning on the produced tree returns it unchanged. -/
theorem c4_directories_idempotent_witness :
    makedirs junkStart base_dir = .ok junkStart ∧
    create_directory_structure resultTree = .ok resultTree :=
  ⟨c4_directories_idempotent.1 junkStart base_dir (by decide) (by decide),
   c4_directories_idempotent.2 [] resultTree run_empty_ok⟩

set_option maxRecDepth 10000 in
/-- C5: every file the script creates is zero-byte: every table entry's
content is the empty string, and every write step of the program carries the
empty content. -/
theorem c5_files_zero_byte :
    (∀ pc ∈ allFilePairs, pc.2 = "") ∧ AllWrites programOps "" :=
  ⟨by decide, allWrites_program⟩

/-- C6: a filesystem error at any step propagates unhandled: the whole run
errors (no retry, no handling), and the resulting on-disk state is exactly the
state reached before the failing step — everything created before remains,
nothing after is created. -/
theorem c6_error_aborts (fs fs₁ : FS) (ops₁ ops₂ : List Op) (op : Op)
    (hsplit : programOps = ops₁ ++ op :: ops₂)
    (hpre : run fs ops₁ = .ok fs₁) (hfail : runOp fs₁ op = .error ()) :
    create_directory_structure fs = .error () ∧ runP fs programOps = (fs₁, false) := by
  constructor
  · rw [cds_eq_run, hsplit]
    exact run_fail ops₁ ops₂ op fs fs₁ hpre hfail
  · rw [hsplit]
    exact runP_fail ops₁ fs fs₁ op ops₂ hpre hfail

/-- C6 witness: when the root name is taken by a regular file, the very first
step fails, the run errors and nothing is created. -/
theorem c6_error_aborts_witness :
    create_directory_structure failStart = .error () ∧
    runP failStart programOps = (failStart, false) :=
  c6_error_aborts failStart failStart [] (programOps.drop 1) (Op.mkdirs base_dir)
    (by rfl) rfl rfl

/-- C7: the success confirmation is printed iff the entire materialization
completed without error. -/
theorem c7_success_message (fs : FS) :
    mainOutput fs = some successMsg ↔
      ∃ fs', create_directory_structure fs = .ok fs' := by
  unfold mainOutput
  cases h : create_directory_structure fs with
  | ok f => simp [h]
  | error e => simp [h]

/-- C8 counterexample: not every path passed to `os.makedirs` or `create_file`
is the join of `base_dir` with a relative entry — the very first step passes
`base_dir` itself, which no join `pathJoin base_dir rel` can equal. -/
theorem c8_counterexample :
    ¬ (∀ op ∈ programOps, ∃ rel, opPath op = pathJoin base_dir rel ∧ SafeRel rel) := by
  intro hprop
  obtain ⟨rel, heq, hsafe⟩ := hprop (Op.mkdirs base_dir) mem_ops_base
  have hnot : ¬ (base_dir = "" ∨ strEndsWith base_dir "/" = true) := by decide
  simp only [opPath, pathJoin, hsafe.1, Bool.false_eq_true, if_false, hnot,
    ite_false] at heq
  have hlen := congrArg String.length heq
  rw [String.length_append, String.length_append] at hlen
  have hone : ("/" : String).length = 1 := rfl
  omega

/-- C8 amended: every path the script passes to `os.makedirs` or `create_file`
is either the root `base_dir` itself (its initial creation) or the join of
`base_dir` with a relative entry that has no absolute prefix and no
parent-directory component, so no entry escapes the root. -/
theorem c8_confined_under_root :
    ∀ op ∈ programOps, opPath op = base_dir ∨
      ∃ rel, opPath op = pathJoin base_dir rel ∧ SafeRel rel := by
  intro op hm
  simp only [programOps, List.mem_append, List.mem_map, List.mem_cons,
    List.mem_singleton, List.not_mem_nil, or_false] at hm
  rcases hm with ((((((((h | h) | h) | h) | h) | h) | h) | h) | h)
  · subst h
    exact Or.inl rfl
  · obtain ⟨a, ha, rfl⟩ := h
    exact Or.inr ⟨a, rfl, root_files_safe a ha⟩
  · obtain ⟨a, ha, rfl⟩ := h
    exact Or.inr ⟨a, rfl, public_dirs_safe a ha⟩
  · obtain ⟨a, ha, rfl⟩ := h
    exact Or.inr ⟨a.1, rfl, public_files_safe a ha⟩
  · obtain ⟨a, ha, rfl⟩ := h
    exact Or.inr ⟨a, rfl, src_dirs_safe a ha⟩
  · obtain ⟨a, ha, rfl⟩ := h
    exact Or.inr ⟨a.1, rfl, src_files_safe a ha⟩
  · rcases h with rfl | rfl
    · exact Or.inr ⟨"data", rfl, by decide⟩
    · exact Or.inr ⟨"data/presale-pricing.json", rfl, by decide⟩
  · obtain ⟨a, ha, rfl⟩ := h
    exact Or.inr ⟨a, rfl, docs_files_safe a ha⟩
  · obtain ⟨a, ha, rfl⟩ := h
    exact Or.inr ⟨a, rfl, test_dirs_safe a ha⟩

/-- C8 witness: the root-creation step (covered by the amended left
disjunct). -/
theorem c8_confined_under_root_witness :
    opPath (Op.mkdirs base_dir) = base_dir ∨
      ∃ rel, opPath (Op.mkdirs base_dir) = pathJoin base_dir rel ∧ SafeRel rel :=
  c8_confined_under_root (Op.mkdirs base_dir) mem_ops_base

/-- C9: `create_file` on a path with an empty directory component raises
(it calls `os.makedirs("")`), and every `create_file` call made by
`create_directory_structure` has a non-empty directory component, so this
error branch is unreachable in the script's own runs. -/
theorem c9_create_file_precondition :
    (∀ fs p c, dirname p = "" → create_file fs p c = .error ()) ∧
    (∀ p c, Op.write p c ∈ programOps → dirname p ≠ "") := by
  constructor
  · intro fs p c hd
    rw [create_file, hd]
    simp [makedirs, Bind.bind, Except.bind]
  · intro p c hm
    have h := program_write_dirname (Op.write p c) hm
    simpa [writeDirnameOk] using h

/-- C9 witness: a bare filename fails; the script's own `README.md` call has
directory component `wattschain-mlm-platform`. -/
theorem c9_create_file_precondition_witness :
    create_file [] "README.md" "" = .error () ∧
    dirname (pathJoin base_dir "README.md") ≠ "" :=
  ⟨c9_create_file_precondition.1 [] "README.md" "" rfl,
   c9_create_file_precondition.2 (pathJoin base_dir "README.md") ""
     (mem_ops_root "README.md" (by decide))⟩

/-- C10: the run is deterministic — it always performs the one fixed step
sequence `programOps`, and two successful runs from the same starting state
produce the same tree. -/
theorem c10_deterministic :
    (∀ fs, create_directory_structure fs = run fs programOps) ∧
    (∀ fs fs₁ fs₂, create_directory_structure fs = .ok fs₁ →
      create_directory_structure fs = .ok fs₂ → fs₁ = fs₂) := by
  refine ⟨cds_eq_run, fun fs fs₁ fs₂ h₁ h₂ => ?_⟩
  rw [h₁] at h₂
  exact Except.ok.inj h₂

end WattsChain
